import Mathlib

set_option maxHeartbeats 1000000

/-!
Shallow embedding of the two core modules of the aws-serverless-etl repository:
the API ingestion Lambda (src/lambda/api_ingestion/handler.py) and the Glue
transform job (src/glue/jobs/raw_to_processed.py).

Python exceptions are modelled with Except: an error value is a raised
exception carrying str(e).  The external collaborators (Secrets Manager, the
HTTP endpoints, S3) are modelled as an explicit environment of functions, each
returning Except to model a call that may raise.
-/

/-! Part 1: model of src/lambda/api_ingestion/handler.py -/

/-- A parsed JSON value as returned by response.json in Python. -/
inductive PyVal where
  | vlist (elems : List PyVal)
  | vdict (fields : List (String × PyVal))
  | vstr (s : String)
  | vint (n : Int)
  | vnull

/-- Python: len(data) if isinstance(data, list) else 1, computed twice in
handler.py (upload_to_s3 and process_source). -/
def recordCount : PyVal → Nat
  | .vlist l => l.length
  | _ => 1

/-- One entry of the sources list held in the secret.  A missing key of the
Python dict is modelled as none; in particular name = none models a source
configuration that lacks the name key (accessing it raises KeyError). -/
structure SourceConfig where
  name : Option String
  url : String
  api_key : Option String
  params : Option (List (String × String))
deriving DecidableEq

/-- The parsed secret: json.loads(response SecretString); config.get with the
key sources and default empty list is folded into the sources field. -/
structure ApiConfig where
  sources : List SourceConfig
deriving DecidableEq

/-- A UTC wall-clock instant, as produced by datetime.utcnow(). -/
structure UtcTime where
  year : Nat
  month : Nat
  day : Nat
  hour : Nat
  minute : Nat
  second : Nat
deriving DecidableEq

/-- Python percent-02d formatting. -/
def pad2 (n : Nat) : String := if n < 10 then "0" ++ toString n else toString n

/-- Python strftime year field, zero padded to four digits. -/
def pad4 (n : Nat) : String :=
  if n < 10 then "000" ++ toString n
  else if n < 100 then "00" ++ toString n
  else if n < 1000 then "0" ++ toString n
  else toString n

/-- datetime.isoformat(). -/
def UtcTime.iso (t : UtcTime) : String :=
  pad4 t.year ++ "-" ++ pad2 t.month ++ "-" ++ pad2 t.day ++ "T" ++
    pad2 t.hour ++ ":" ++ pad2 t.minute ++ ":" ++ pad2 t.second

/-- strftime with the compact pattern used in the landed filename. -/
def UtcTime.compact (t : UtcTime) : String :=
  pad4 t.year ++ pad2 t.month ++ pad2 t.day ++ "_" ++
    pad2 t.hour ++ pad2 t.minute ++ pad2 t.second

/-- The body written to S3: the payload wrapped in the metadata envelope built
in upload_to_s3. -/
structure S3Body where
  data : PyVal
  source : String
  ingestion_time : String
  record_count : Nat

/-- External collaborators of the Lambda.  getSecret models one call of
secrets_client.get_secret_value plus json parsing; httpGet models
requests.get(url, headers, params) with raise_for_status and json decoding;
putObject models s3_client.put_object on (bucket, key, body).  An error value
is a raised exception. -/
structure Env where
  getSecret : Except String ApiConfig
  httpGet : String → List (String × String) → Option (List (String × String)) →
      Except String PyVal
  putObject : String → String → S3Body → Except String Unit

/-- Default of the RAW_BUCKET environment variable. -/
def RAW_BUCKET : String := "data-lake-raw"

/-- get_api_config: retrieve and parse the configuration secret; a ClientError
is logged and re-raised. -/
def get_api_config (env : Env) : Except String ApiConfig :=
  env.getSecret

/-- fetch_api_data: one bounded GET; a RequestException is logged and
re-raised. -/
def fetch_api_data (env : Env) (url : String) (headers : List (String × String))
    (params : Option (List (String × String))) : Except String PyVal :=
  env.httpGet url headers params

/-- Headers built in process_source: Content-Type always, Authorization when
the config carries an api_key. -/
def buildHeaders (cfg : SourceConfig) : List (String × String) :=
  [("Content-Type", "application/json")] ++
    (match cfg.api_key with
     | some k => [("Authorization", "Bearer " ++ k)]
     | none => [])

/-- upload_to_s3: compute the partitioned object key, wrap the payload in the
metadata envelope, and put it.  Returns the key together with the list of
object keys actually written (empty when put_object raised). -/
def upload_to_s3 (env : Env) (data : PyVal) (source_name : String)
    (timestamp : UtcTime) : Except String String × List String :=
  let partition_path :=
    source_name ++ "/year=" ++ toString timestamp.year ++
      "/month=" ++ pad2 timestamp.month ++
      "/day=" ++ pad2 timestamp.day ++
      "/hour=" ++ pad2 timestamp.hour ++ "/"
  let filename := source_name ++ "_" ++ timestamp.compact ++ ".json"
  let object_key := partition_path ++ filename
  let body : S3Body :=
    { data := data, source := source_name, ingestion_time := timestamp.iso,
      record_count := recordCount data }
  match env.putObject RAW_BUCKET object_key body with
  | .ok _ => (.ok object_key, [object_key])
  | .error e => (.error e, [])

/-- One element of the results list built by the handler loop. -/
structure SourceResult where
  source : String
  status : String
  record_count : Nat
  s3_key : String
deriving DecidableEq

/-- One element of the errors list built by the handler loop. -/
structure SourceError where
  source : String
  status : String
  message : String
deriving DecidableEq

/-- process_source: read the name (KeyError when missing), build headers,
fetch, upload; any raised exception is the error value.  The second component
is the list of object keys written. -/
def process_source (env : Env) (cfg : SourceConfig) (timestamp : UtcTime) :
    Except String SourceResult × List String :=
  match cfg.name with
  | none => (.error "KeyError: name", [])
  | some source_name =>
    match fetch_api_data env cfg.url (buildHeaders cfg) cfg.params with
    | .error e => (.error e, [])
    | .ok data =>
      match upload_to_s3 env data source_name timestamp with
      | (.error e, ws) => (.error e, ws)
      | (.ok object_key, ws) =>
        (.ok { source := source_name, status := "success",
               record_count := recordCount data, s3_key := object_key }, ws)

/-- State accumulated by the per-source loop of the handler.  escaped = some m
records an exception that escaped the per-source try/except (namely the
KeyError raised while building the failure entry for a nameless config);
attempted lists the configs for which process_source was entered, and writes
the object keys landed so far. -/
structure LoopOut where
  results : List SourceResult
  errors : List SourceError
  attempted : List SourceConfig
  writes : List String
  escaped : Option String
deriving DecidableEq

/-- The for-loop of the handler: per-source try/except.  On success the result
is appended; on failure the except block reads source_config with the name key
to build the failure entry, which itself raises when the key is missing and
then aborts the remaining sources. -/
def processLoop (env : Env) (timestamp : UtcTime) :
    List SourceConfig → LoopOut
  | [] => { results := [], errors := [], attempted := [], writes := [],
            escaped := none }
  | cfg :: rest =>
    match process_source env cfg timestamp with
    | (.ok r, ws) =>
      let o := processLoop env timestamp rest
      { results := r :: o.results, errors := o.errors,
        attempted := cfg :: o.attempted, writes := ws ++ o.writes,
        escaped := o.escaped }
    | (.error e, ws) =>
      match cfg.name with
      | some n =>
        let o := processLoop env timestamp rest
        { results := o.results,
          errors := { source := n, status := "error", message := e } :: o.errors,
          attempted := cfg :: o.attempted, writes := ws ++ o.writes,
          escaped := o.escaped }
      | none =>
        { results := [], errors := [], attempted := [cfg], writes := ws,
          escaped := some "KeyError: name" }

/-- The Lambda event: an optional source_name filter. -/
structure Event where
  source_name : Option String
deriving DecidableEq

/-- The source filter of the handler.  The Python list comprehension reads the
name key of every source, so it raises KeyError when any config is nameless. -/
def filter_sources (sources : List SourceConfig) (requested : Option String) :
    Except String (List SourceConfig) :=
  match requested with
  | none => .ok sources
  | some n =>
    if sources.all (fun s => s.name.isSome) then
      .ok (sources.filter (fun s => s.name == some n))
    else .error "KeyError: name"

/-- The body of the handler response: the 200/207 dict or the 500 error
dict. -/
inductive HandlerBody where
  | ok (timestamp : UtcTime) (total_sources successful failed : Nat)
      (results : List SourceResult) (errors : List SourceError)
  | fatal (error : String) (timestamp : UtcTime)
deriving DecidableEq

/-- The handler response, plus the observable trace of the run: which configs
process_source was entered for, and which object keys were written. -/
structure HandlerOutput where
  statusCode : Nat
  body : HandlerBody
  attempted : List SourceConfig
  writes : List String
deriving DecidableEq

def HandlerBody.totalOf : HandlerBody → Nat
  | .ok _ t _ _ _ _ => t
  | .fatal _ _ => 0

def HandlerBody.resultsOf : HandlerBody → List SourceResult
  | .ok _ _ _ _ rs _ => rs
  | .fatal _ _ => []

def HandlerBody.errorsOf : HandlerBody → List SourceError
  | .ok _ _ _ _ _ es => es
  | .fatal _ _ => []

def HandlerBody.isFatalB : HandlerBody → Bool
  | .ok _ _ _ _ _ _ => false
  | .fatal _ _ => true

/-- handler: the Lambda entry point.  timestamp is datetime.utcnow(), sampled
before the outer try.  Any exception reaching the outer except yields the 500
response. -/
def handler (env : Env) (event : Event) (timestamp : UtcTime) : HandlerOutput :=
  match get_api_config env with
  | .error e =>
    { statusCode := 500, body := .fatal e timestamp, attempted := [], writes := [] }
  | .ok config =>
    match filter_sources config.sources event.source_name with
    | .error e =>
      { statusCode := 500, body := .fatal e timestamp, attempted := [], writes := [] }
    | .ok sources =>
      let o := processLoop env timestamp sources
      match o.escaped with
      | some e =>
        { statusCode := 500, body := .fatal e timestamp,
          attempted := o.attempted, writes := o.writes }
      | none =>
        { statusCode := if o.errors.isEmpty then 200 else 207,
          body := .ok timestamp sources.length o.results.length o.errors.length
                    o.results o.errors,
          attempted := o.attempted, writes := o.writes }

/-! Part 2: model of src/glue/jobs/raw_to_processed.py

A Spark DataFrame is modelled as a schema (column names with types) together
with rows; a row maps column names to cell values, and a null cell models the
SQL NULL of Spark. -/

/-- The event timestamp value of a record, with its calendar fields (the
functions year, month and dayofmonth read them) and a residual
seconds-within-day component that only takes part in ordering. -/
structure EventTime where
  year : Nat
  month : Nat
  day : Nat
  secs : Nat
deriving DecidableEq

/-- Chronological order of event timestamps, lexicographic on the fields. -/
def EventTime.le (a b : EventTime) : Bool :=
  if a.year = b.year then
    if a.month = b.month then
      if a.day = b.day then decide (a.secs ≤ b.secs)
      else decide (a.day ≤ b.day)
    else decide (a.month ≤ b.month)
  else decide (a.year ≤ b.year)

/-- Spark column types appearing in the job. -/
inductive DType where
  | stringT
  | intT
  | timestampT
deriving DecidableEq

/-- One cell of a row; null is the SQL NULL. -/
inductive CellValue where
  | null
  | str (s : String)
  | int (n : Int)
  | ts (t : EventTime)
deriving DecidableEq

/-- A row: column name to cell value bindings. -/
abbrev Row := List (String × CellValue)

/-- A DataFrame: schema plus rows. -/
structure DataFrame where
  schema : List (String × DType)
  rows : List Row
deriving DecidableEq

/-- df.columns. -/
def DataFrame.columns (df : DataFrame) : List String :=
  df.schema.map Prod.fst

/-- Reading column c of a row; an absent binding reads as NULL. -/
def getVal : Row → String → CellValue
  | [], _ => .null
  | (k, v) :: rest, c => if k = c then v else getVal rest c

/-- Writing column c of a row: replace the first binding, or append when the
column is new. -/
def setVal : Row → String → CellValue → Row
  | [], c, v => [(c, v)]
  | (k, w) :: rest, c, v =>
    if k = c then (c, v) :: rest else (k, w) :: setVal rest c v

/-- df.withColumn(c, expr): the expression is evaluated per row; the schema
gains the column when new, and keeps its position with the new type
otherwise. -/
def DataFrame.withColumn (df : DataFrame) (c : String) (dt : DType)
    (f : Row → CellValue) : DataFrame :=
  { schema :=
      if df.columns.contains c then
        df.schema.map (fun p => if p.1 = c then (c, dt) else p)
      else df.schema ++ [(c, dt)],
    rows := df.rows.map (fun r => setVal r c (f r)) }

/-- Whether two rows fall in the same dedup group: equal id values (Spark
window partitioning groups NULL keys together). -/
def sameKey (q r : Row) : Bool := decide (getVal q "id" = getVal r "id")

/-- The recency value of a row: its timestamp cell. -/
def recOf (r : Row) : CellValue := getVal r "timestamp"

/-- Order of recency values as used by the descending window sort: NULL (and
any non-timestamp cell) sorts below every timestamp, which is the Spark
desc-nulls-last default. -/
def recLe (a b : CellValue) : Bool :=
  match a, b with
  | .ts x, .ts y => x.le y
  | .ts _, _ => false
  | _, _ => true

/-- Strict recency order. -/
def recLt (a b : CellValue) : Bool := recLe a b && ! recLe b a

/-- Whether the window row_number of this row is 1, among earlier and later
rows of the frame: no earlier same-key row ties or beats it, and no later
same-key row strictly beats it.  This renders row_number over
partitionBy(id).orderBy(desc(timestamp)) with a stable (input-order)
tie-break. -/
def keepRow (earlier : List Row) (r : Row) (later : List Row) : Bool :=
  earlier.all (fun q => ! sameKey q r || recLt (recOf q) (recOf r)) &&
    later.all (fun q => ! sameKey q r || ! recLt (recOf r) (recOf q))

/-- The filter on row_number == 1, folded over the frame. -/
def dedupeGo (earlier : List Row) : List Row → List Row
  | [] => []
  | r :: rest =>
    if keepRow earlier r rest then r :: dedupeGo (r :: earlier) rest
    else dedupeGo (r :: earlier) rest

/-- The dedup stage of clean_data: guarded on both columns being in the
schema, keep the row_number-1 row of each id group (the transient row_num
column is added and dropped again, so the schema is unchanged). -/
def dedupe (df : DataFrame) : DataFrame :=
  if "id" ∈ df.columns ∧ "timestamp" ∈ df.columns then
    { schema := df.schema, rows := dedupeGo [] df.rows }
  else df

/-- The string-typed column names of the schema, as collected by clean_data
from df.schema.fields. -/
def stringCols (df : DataFrame) : List String :=
  (df.schema.filter (fun p => p.2 == DType.stringT)).map Prod.fst

/-- F.trim: remove leading and trailing whitespace of a string. -/
def trimStr (s : String) : String :=
  String.mk
    (((s.toList.dropWhile Char.isWhitespace).reverse.dropWhile
        Char.isWhitespace).reverse)

/-- F.trim applied to a cell: NULL stays NULL and non-string cells are
unchanged. -/
def trimCell : CellValue → CellValue
  | .str s => .str (trimStr s)
  | v => v

/-- Whether a cell is NULL, as tested by na.drop. -/
def isNullCell : CellValue → Bool
  | .null => true
  | _ => false

/-- The per-row effect of the chain of trimming withColumn calls of
clean_data, one setVal per string-typed column. -/
def trimRowBy (cols : List String) (r : Row) : Row :=
  cols.foldl (fun acc c => setVal acc c (trimCell (getVal acc c))) r

/-- clean_data: dedup (guarded), then trim every string-typed column, then
na.drop on the id column when it is in the schema. -/
def clean_data (df : DataFrame) : DataFrame :=
  let cleaned := dedupe df
  let cleaned :=
    (stringCols df).foldl
      (fun acc c => acc.withColumn c DType.stringT (fun r => trimCell (getVal r c)))
      cleaned
  if "id" ∈ df.columns then
    { cleaned with rows := cleaned.rows.filter (fun r => ! isNullCell (getVal r "id")) }
  else cleaned

/-- add_audit_columns: the three provenance columns.  now models
current_timestamp(), sourceFile models input_file_name(), and jobRunId the
optional JOB_RUN_ID argument with its local default. -/
def add_audit_columns (df : DataFrame) (now : EventTime) (sourceFile : String)
    (jobRunId : Option String) : DataFrame :=
  ((df.withColumn "_processed_at" DType.timestampT (fun _ => .ts now)).withColumn
      "_source_file" DType.stringT (fun _ => .str sourceFile)).withColumn
    "_job_run_id" DType.stringT (fun _ => .str (jobRunId.getD "local"))

/-- F.year of a cell: NULL on NULL (and on a non-timestamp cell). -/
def yearOf : CellValue → CellValue
  | .ts t => .int t.year
  | _ => .null

/-- F.month of a cell. -/
def monthOf : CellValue → CellValue
  | .ts t => .int t.month
  | _ => .null

/-- F.dayofmonth of a cell. -/
def dayOf : CellValue → CellValue
  | .ts t => .int t.day
  | _ => .null

/-- add_partitions: when the timestamp column is in the schema, derive the
partition columns from it per row; otherwise set all three to the processing
date (datetime.utcnow() at call time, passed here as now). -/
def add_partitions (df : DataFrame) (now : EventTime) : DataFrame :=
  if "timestamp" ∈ df.columns then
    ((df.withColumn "year" DType.intT (fun r => yearOf (getVal r "timestamp"))).withColumn
        "month" DType.intT (fun r => monthOf (getVal r "timestamp"))).withColumn
      "day" DType.intT (fun r => dayOf (getVal r "timestamp"))
  else
    ((df.withColumn "year" DType.intT (fun _ => .int now.year)).withColumn
        "month" DType.intT (fun _ => .int now.month)).withColumn
      "day" DType.intT (fun _ => .int now.day)

/-- write_processed_data: the partitioned Parquet write to the target path,
returning df.count(). -/
def write_processed_data (df : DataFrame) (bucket pfx : String) : String × Nat :=
  ("s3://" ++ bucket ++ "/" ++ pfx, df.rows.length)

/-- main: read, clean, annotate, partition, write; the returned number is the
row_count handed to update_catalog. -/
def run_etl (raw : DataFrame) (now : EventTime) (sourceFile : String)
    (jobRunId : Option String) (bucket pfx : String) : Nat :=
  let cleaned := clean_data raw
  let withAudit := add_audit_columns cleaned now sourceFile jobRunId
  let withParts := add_partitions withAudit now
  (write_processed_data withParts bucket pfx).2

/-- Boolean success test of an Except value. -/
def exceptOk {ε α : Type} : Except ε α → Bool
  | .ok _ => true
  | .error _ => false

/-! Concrete inputs used by the witnesses and counterexamples. -/

def egTime : UtcTime := ⟨2024, 3, 15, 10, 0, 0⟩

def egSrc1 : SourceConfig :=
  { name := some "alpha", url := "https://a.example", api_key := none, params := none }

def egSrc2 : SourceConfig :=
  { name := some "beta", url := "https://b.example", api_key := none, params := none }

def egSrc3 : SourceConfig :=
  { name := some "gamma", url := "https://c.example", api_key := none, params := none }

def egSrcNoName : SourceConfig :=
  { name := none, url := "https://n.example", api_key := none, params := none }

/-- Environment where only the second source fails (its fetch raises). -/
def egEnvOneBad : Env :=
  { getSecret := .ok ⟨[egSrc1, egSrc2, egSrc3]⟩,
    httpGet := fun url _ _ =>
      if url = "https://b.example" then .error "timeout"
      else .ok (.vlist [.vint 1, .vint 2]),
    putObject := fun _ _ _ => .ok () }

/-- Environment whose configuration retrieval fails. -/
def egEnvNoConfig : Env :=
  { getSecret := .error "AccessDenied",
    httpGet := fun _ _ _ => .ok (.vlist []),
    putObject := fun _ _ _ => .ok () }

/-- Environment holding a nameless source between two healthy ones. -/
def egEnvNoName : Env :=
  { getSecret := .ok ⟨[egSrc1, egSrcNoName, egSrc3]⟩,
    httpGet := fun _ _ _ => .ok (.vlist [.vint 1]),
    putObject := fun _ _ _ => .ok () }

def egNow : EventTime := ⟨2024, 3, 15, 0⟩

/-- A frame whose schema has the timestamp column but whose only record holds
a NULL timestamp value. -/
def egNullTsDf : DataFrame :=
  { schema := [("timestamp", DType.timestampT)],
    rows := [[("timestamp", CellValue.null)]] }

/-- A frame without the timestamp column. -/
def egNoTsDf : DataFrame :=
  { schema := [("id", DType.intT)], rows := [[("id", CellValue.int 1)]] }

/-- A frame without the id column. -/
def egNoIdDf : DataFrame :=
  { schema := [("v", DType.stringT)], rows := [[("v", CellValue.str "  x ")]] }

def egRow (i : Int) (d : Nat) : Row :=
  [("id", CellValue.int i), ("name", CellValue.str "  abc  "),
   ("timestamp", CellValue.ts ⟨2024, 1, d, 0⟩)]

/-- Ten raw records: two share id 1 (distinct timestamps) and one has a NULL
id. -/
def egTenDf : DataFrame :=
  { schema := [("id", DType.intT), ("name", DType.stringT),
               ("timestamp", DType.timestampT)],
    rows := [egRow 1 1, egRow 1 2, egRow 2 1, egRow 3 1, egRow 4 1, egRow 5 1,
             egRow 6 1, egRow 7 1, egRow 8 1,
             [("id", CellValue.null), ("name", CellValue.str "x"),
              ("timestamp", CellValue.ts ⟨2024, 1, 3, 0⟩)]] }

/-- A small frame with an id column, a string column to trim and an int
column. -/
def egTrimDf : DataFrame :=
  { schema := [("id", DType.intT), ("name", DType.stringT)],
    rows := [[("id", CellValue.int 1), ("name", CellValue.str "  abc  ")]] }

/-- A frame with duplicate ids for the dedup witness. -/
def egDupDf : DataFrame :=
  { schema := [("id", DType.intT), ("timestamp", DType.timestampT)],
    rows := [[("id", CellValue.int 1), ("timestamp", CellValue.ts ⟨2024, 1, 1, 0⟩)],
             [("id", CellValue.int 1), ("timestamp", CellValue.ts ⟨2024, 1, 2, 0⟩)],
             [("id", CellValue.int 2), ("timestamp", CellValue.ts ⟨2024, 1, 1, 0⟩)]] }

/-! Helper lemmas about the ingestion model. -/

theorem process_source_ok_name (env : Env) (cfg : SourceConfig) (ts : UtcTime)
    (res : SourceResult) (ws : List String)
    (h : process_source env cfg ts = (.ok res, ws)) :
    cfg.name = some res.source := by
  cases hn : cfg.name with
  | none => simp [process_source, hn] at h
  | some n =>
    cases hf : fetch_api_data env cfg.url (buildHeaders cfg) cfg.params with
    | error e => simp [process_source, hn, hf] at h
    | ok data =>
      rcases hu : upload_to_s3 env data n ts with ⟨u, ws2⟩
      cases u with
      | error e => simp [process_source, hn, hf, hu] at h
      | ok key =>
        simp only [process_source, hn, hf, hu, Prod.mk.injEq, Except.ok.injEq] at h
        rw [← h.1]

theorem processLoop_all_ok (env : Env) (ts : UtcTime) (l : List SourceConfig)
    (h : ∀ cfg ∈ l, exceptOk (process_source env cfg ts).1 = true) :
    (processLoop env ts l).errors = [] ∧
    (processLoop env ts l).escaped = none ∧
    (processLoop env ts l).attempted = l ∧
    (processLoop env ts l).results.length = l.length ∧
    ∀ cfg ∈ l, ∃ r ∈ (processLoop env ts l).results, cfg.name = some r.source := by
  induction l with
  | nil => simp [processLoop]
  | cons c l ih =>
    have hc := h c (List.mem_cons_self c l)
    rcases hp : process_source env c ts with ⟨pr, ws⟩
    cases pr with
    | error e => rw [hp] at hc; simp [exceptOk] at hc
    | ok r =>
      have hname := process_source_ok_name env c ts r ws hp
      have ih2 := ih (fun cfg hm => h cfg (List.mem_cons_of_mem c hm))
      refine ⟨?_, ?_, ?_, ?_, ?_⟩
      · simp [processLoop, hp, ih2.1]
      · simp [processLoop, hp, ih2.2.1]
      · simp [processLoop, hp, ih2.2.2.1]
      · simp [processLoop, hp, ih2.2.2.2.1]
      · intro cfg hm
        rcases List.mem_cons.1 hm with rfl | hm
        · exact ⟨r, by simp [processLoop, hp], hname⟩
        · rcases ih2.2.2.2.2 cfg hm with ⟨r2, hr2, hn2⟩
          exact ⟨r2, by simp [processLoop, hp]; exact Or.inr hr2, hn2⟩

theorem processLoop_len (env : Env) (ts : UtcTime) (l : List SourceConfig)
    (h : (processLoop env ts l).escaped = none) :
    (processLoop env ts l).results.length + (processLoop env ts l).errors.length = l.length ∧
    (processLoop env ts l).attempted = l := by
  induction l with
  | nil => simp [processLoop]
  | cons c l ih =>
    rcases hp : process_source env c ts with ⟨pr, ws⟩
    cases pr with
    | ok r =>
      rw [show processLoop env ts (c :: l) =
        { results := r :: (processLoop env ts l).results,
          errors := (processLoop env ts l).errors,
          attempted := c :: (processLoop env ts l).attempted,
          writes := ws ++ (processLoop env ts l).writes,
          escaped := (processLoop env ts l).escaped } from by simp [processLoop, hp]] at h ⊢
      have := ih h
      simp only [List.length_cons]
      constructor
      · omega
      · simp [this.2]
    | error e =>
      cases hn : c.name with
      | none =>
        rw [show processLoop env ts (c :: l) =
          { results := [], errors := [], attempted := [c], writes := ws,
            escaped := some "KeyError: name" } from by simp [processLoop, hp, hn]] at h
        simp at h
      | some n =>
        rw [show processLoop env ts (c :: l) =
          { results := (processLoop env ts l).results,
            errors := { source := n, status := "error", message := e } ::
              (processLoop env ts l).errors,
            attempted := c :: (processLoop env ts l).attempted,
            writes := ws ++ (processLoop env ts l).writes,
            escaped := (processLoop env ts l).escaped } from by simp [processLoop, hp, hn]] at h ⊢
        have := ih h
        simp only [List.length_cons]
        constructor
        · omega
        · simp [this.2]

theorem processLoop_append_ok (env : Env) (ts : UtcTime) (l₁ l₂ : List SourceConfig)
    (h : ∀ cfg ∈ l₁, exceptOk (process_source env cfg ts).1 = true) :
    (processLoop env ts (l₁ ++ l₂)).escaped = (processLoop env ts l₂).escaped ∧
    (processLoop env ts (l₁ ++ l₂)).errors = (processLoop env ts l₂).errors ∧
    (processLoop env ts (l₁ ++ l₂)).attempted = l₁ ++ (processLoop env ts l₂).attempted ∧
    (processLoop env ts (l₁ ++ l₂)).results.length =
      l₁.length + (processLoop env ts l₂).results.length ∧
    (∀ cfg ∈ l₁, ∃ r ∈ (processLoop env ts (l₁ ++ l₂)).results, cfg.name = some r.source) ∧
    ∀ r ∈ (processLoop env ts l₂).results, r ∈ (processLoop env ts (l₁ ++ l₂)).results := by
  induction l₁ with
  | nil => simp
  | cons c l ih =>
    have hc := h c (List.mem_cons_self c l)
    rcases hp : process_source env c ts with ⟨pr, ws⟩
    cases pr with
    | error e => rw [hp] at hc; simp [exceptOk] at hc
    | ok r =>
      have hname := process_source_ok_name env c ts r ws hp
      have ih2 := ih (fun cfg hm => h cfg (List.mem_cons_of_mem c hm))
      refine ⟨?_, ?_, ?_, ?_, ?_, ?_⟩
      · simp [processLoop, hp, ih2.1]
      · simp [processLoop, hp, ih2.2.1]
      · simp [processLoop, hp, ih2.2.2.1]
      · simp [processLoop, hp, ih2.2.2.2.1]; omega
      · intro cfg hm
        rcases List.mem_cons.1 hm with rfl | hm
        · exact ⟨r, by simp [processLoop, hp], hname⟩
        · rcases ih2.2.2.2.2.1 cfg hm with ⟨r2, hr2, hn2⟩
          exact ⟨r2, by simp [processLoop, hp]; exact Or.inr hr2, hn2⟩
      · intro r2 hr2
        have := ih2.2.2.2.2.2 r2 hr2
        simp [processLoop, hp]
        exact Or.inr this

theorem processLoop_noname (env : Env) (ts : UtcTime) (pre post : List SourceConfig)
    (bad : SourceConfig) (hpre : ∀ cfg ∈ pre, cfg.name.isSome = true)
    (hbad : bad.name = none) :
    (processLoop env ts (pre ++ bad :: post)).escaped = some "KeyError: name" ∧
    (processLoop env ts (pre ++ bad :: post)).attempted = pre ++ [bad] := by
  induction pre with
  | nil =>
    have hp : process_source env bad ts = (.error "KeyError: name", []) := by
      unfold process_source; rw [hbad]
    simp [processLoop, hp, hbad]
  | cons c pre ih =>
    have hc := hpre c (List.mem_cons_self c pre)
    have ih2 := ih (fun cfg hm => hpre cfg (List.mem_cons_of_mem c hm))
    rcases hp : process_source env c ts with ⟨pr, ws⟩
    cases pr with
    | ok r => simp [processLoop, hp, ih2.1, ih2.2]
    | error e =>
      cases hn : c.name with
      | none => rw [hn] at hc; simp at hc
      | some n => simp [processLoop, hp, hn, ih2.1, ih2.2]

theorem handler_ok_reduce (env : Env) (ts : UtcTime) (cfgs : List SourceConfig)
    (hcfg : env.getSecret = .ok ⟨cfgs⟩)
    (hesc : (processLoop env ts cfgs).escaped = none) :
    handler env ⟨none⟩ ts =
      { statusCode := if (processLoop env ts cfgs).errors.isEmpty then 200 else 207,
        body := .ok ts cfgs.length (processLoop env ts cfgs).results.length
                  (processLoop env ts cfgs).errors.length
                  (processLoop env ts cfgs).results (processLoop env ts cfgs).errors,
        attempted := (processLoop env ts cfgs).attempted,
        writes := (processLoop env ts cfgs).writes } := by
  unfold handler get_api_config
  rw [hcfg]
  simp [filter_sources, hesc]

theorem handler_escape_reduce (env : Env) (ts : UtcTime) (cfgs : List SourceConfig)
    (e : String) (hcfg : env.getSecret = .ok ⟨cfgs⟩)
    (hesc : (processLoop env ts cfgs).escaped = some e) :
    handler env ⟨none⟩ ts =
      { statusCode := 500, body := .fatal e ts,
        attempted := (processLoop env ts cfgs).attempted,
        writes := (processLoop env ts cfgs).writes } := by
  unfold handler get_api_config
  rw [hcfg]
  simp [filter_sources, hesc]

/-- C1: when exactly one source of the configured list fails (its fetch
raises) and every other source processes successfully, the handler still
attempts every source, reports total_sources equal to the number attempted,
lists every non-failing source among the successes, and lists exactly one
failure naming the failing source. -/
theorem claim_C1 (env : Env) (ts : UtcTime) (pre post : List SourceConfig)
    (bad : SourceConfig) (bn e : String)
    (hok : ∀ cfg ∈ pre ++ post, exceptOk (process_source env cfg ts).1 = true)
    (hbn : bad.name = some bn)
    (hfail : env.httpGet bad.url (buildHeaders bad) bad.params = .error e)
    (hcfg : env.getSecret = .ok ⟨pre ++ bad :: post⟩) :
    (handler env ⟨none⟩ ts).attempted = pre ++ bad :: post ∧
    (handler env ⟨none⟩ ts).body.totalOf = (pre ++ bad :: post).length ∧
    (handler env ⟨none⟩ ts).body.errorsOf =
      [{ source := bn, status := "error", message := e }] ∧
    (∀ cfg ∈ pre ++ post, ∃ r ∈ (handler env ⟨none⟩ ts).body.resultsOf,
        cfg.name = some r.source) ∧
    (handler env ⟨none⟩ ts).body.resultsOf.length = pre.length + post.length ∧
    (handler env ⟨none⟩ ts).statusCode = 207 := by
  have hokpre : ∀ cfg ∈ pre, exceptOk (process_source env cfg ts).1 = true :=
    fun cfg hm => hok cfg (List.mem_append_left post hm)
  have hokpost : ∀ cfg ∈ post, exceptOk (process_source env cfg ts).1 = true :=
    fun cfg hm => hok cfg (List.mem_append_right pre hm)
  have hpbad : process_source env bad ts = (.error e, []) := by
    simp [process_source, fetch_api_data, hbn, hfail]
  have hpost := processLoop_all_ok env ts post hokpost
  have hp2err : (processLoop env ts (bad :: post)).errors =
      [{ source := bn, status := "error", message := e }] := by
    simp [processLoop, hpbad, hbn, hpost.1]
  have hp2esc : (processLoop env ts (bad :: post)).escaped = none := by
    simp [processLoop, hpbad, hbn, hpost.2.1]
  have hp2att : (processLoop env ts (bad :: post)).attempted = bad :: post := by
    simp [processLoop, hpbad, hbn, hpost.2.2.1]
  have hp2len : (processLoop env ts (bad :: post)).results.length = post.length := by
    simp [processLoop, hpbad, hbn, hpost.2.2.2.1]
  have hp2res : ∀ cfg ∈ post,
      ∃ r ∈ (processLoop env ts (bad :: post)).results, cfg.name = some r.source := by
    intro cfg hm
    rcases hpost.2.2.2.2 cfg hm with ⟨r, hr, hnm⟩
    refine ⟨r, ?_, hnm⟩
    simp [processLoop, hpbad, hbn, hr]
  obtain ⟨hesc, herr, hatt, hlen, hmem1, hmem2⟩ :=
    processLoop_append_ok env ts pre (bad :: post) hokpre
  have hLesc : (processLoop env ts (pre ++ bad :: post)).escaped = none :=
    hesc.trans hp2esc
  have hLerr : (processLoop env ts (pre ++ bad :: post)).errors =
      [{ source := bn, status := "error", message := e }] := herr.trans hp2err
  have hLatt : (processLoop env ts (pre ++ bad :: post)).attempted =
      pre ++ bad :: post := by rw [hatt, hp2att]
  have hLlen : (processLoop env ts (pre ++ bad :: post)).results.length =
      pre.length + post.length := by rw [hlen, hp2len]
  rw [handler_ok_reduce env ts (pre ++ bad :: post) hcfg hLesc]
  refine ⟨?_, ?_, ?_, ?_, ?_, ?_⟩
  · exact hLatt
  · simp [HandlerBody.totalOf]
  · simp [HandlerBody.errorsOf, hLerr]
  · intro cfg hm
    simp only [HandlerBody.resultsOf]
    rcases List.mem_append.1 hm with hm | hm
    · exact hmem1 cfg hm
    · rcases hp2res cfg hm with ⟨r, hr, hnm⟩
      exact ⟨r, hmem2 r hr, hnm⟩
  · simp [HandlerBody.resultsOf, hLlen]
  · simp [hLerr]

/-- C1 witness: three concrete sources where only the second fetch fails. -/
theorem claim_C1_witness :
    ((∀ cfg ∈ [egSrc1] ++ [egSrc3], exceptOk (process_source egEnvOneBad cfg egTime).1 = true) ∧
      egSrc2.name = some "beta" ∧
      egEnvOneBad.httpGet egSrc2.url (buildHeaders egSrc2) egSrc2.params = .error "timeout" ∧
      egEnvOneBad.getSecret = .ok ⟨[egSrc1] ++ egSrc2 :: [egSrc3]⟩) ∧
    ((handler egEnvOneBad ⟨none⟩ egTime).attempted = [egSrc1] ++ egSrc2 :: [egSrc3] ∧
      (handler egEnvOneBad ⟨none⟩ egTime).body.totalOf =
        ([egSrc1] ++ egSrc2 :: [egSrc3]).length ∧
      (handler egEnvOneBad ⟨none⟩ egTime).body.errorsOf =
        [{ source := "beta", status := "error", message := "timeout" }] ∧
      (∀ cfg ∈ [egSrc1] ++ [egSrc3],
          ∃ r ∈ (handler egEnvOneBad ⟨none⟩ egTime).body.resultsOf,
            cfg.name = some r.source) ∧
      (handler egEnvOneBad ⟨none⟩ egTime).body.resultsOf.length =
        [egSrc1].length + [egSrc3].length ∧
      (handler egEnvOneBad ⟨none⟩ egTime).statusCode = 207) :=
  ⟨⟨by decide, by decide, rfl, rfl⟩,
    claim_C1 egEnvOneBad egTime [egSrc1] [egSrc3] egSrc2 "beta" "timeout"
      (by decide) (by decide) rfl rfl⟩

/-- C6: the returned status is three-way: 200 exactly when the failure list is
empty, 207 exactly when it is not, and a fatal error yields 500, distinct from
both. -/
theorem claim_C6 (env : Env) (ev : Event) (ts : UtcTime) :
    match (handler env ev ts).body with
    | .ok _ _ _ _ _ es =>
        ((handler env ev ts).statusCode = 200 ↔ es = []) ∧
        ((handler env ev ts).statusCode = 207 ↔ es ≠ []) ∧
        (handler env ev ts).statusCode ≠ 500
    | .fatal _ _ =>
        (handler env ev ts).statusCode = 500 ∧
        (handler env ev ts).statusCode ≠ 207 ∧
        (handler env ev ts).statusCode ≠ 200 := by
  unfold handler
  cases hc : get_api_config env with
  | error e => simp [hc]
  | ok config =>
    cases hf : filter_sources config.sources ev.source_name with
    | error e => simp [hc, hf]
    | ok sources =>
      cases hesc : (processLoop env ts sources).escaped with
      | some e => simp [hc, hf, hesc]
      | none =>
        cases herr : (processLoop env ts sources).errors with
        | nil => simp [hc, hf, hesc, herr]
        | cons x xs => simp [hc, hf, hesc, herr]

/-- C7: every completed (non-fatal) run satisfies
successes.length + failures.length = total_sources, and total_sources is the
number of sources actually attempted after the name filter. -/
theorem claim_C7 (env : Env) (ev : Event) (ts : UtcTime)
    (h : (handler env ev ts).body.isFatalB = false) :
    (handler env ev ts).body.resultsOf.length +
        (handler env ev ts).body.errorsOf.length =
      (handler env ev ts).body.totalOf ∧
    (handler env ev ts).body.totalOf = (handler env ev ts).attempted.length := by
  revert h
  unfold handler
  cases hc : get_api_config env with
  | error e => intro h; simp [hc, HandlerBody.isFatalB] at h
  | ok config =>
    cases hf : filter_sources config.sources ev.source_name with
    | error e => intro h; simp [hc, hf, HandlerBody.isFatalB] at h
    | ok sources =>
      cases hesc : (processLoop env ts sources).escaped with
      | some e => intro h; simp [hc, hf, hesc, HandlerBody.isFatalB] at h
      | none =>
        intro h
        have hl := processLoop_len env ts sources hesc
        simp [hc, hf, hesc, HandlerBody.resultsOf, HandlerBody.errorsOf,
          HandlerBody.totalOf, hl.1, hl.2]

/-- C7 witness at a concrete completed partial run. -/
theorem claim_C7_witness :
    (handler egEnvOneBad ⟨none⟩ egTime).body.isFatalB = false ∧
    ((handler egEnvOneBad ⟨none⟩ egTime).body.resultsOf.length +
        (handler egEnvOneBad ⟨none⟩ egTime).body.errorsOf.length =
      (handler egEnvOneBad ⟨none⟩ egTime).body.totalOf ∧
    (handler egEnvOneBad ⟨none⟩ egTime).body.totalOf =
      (handler egEnvOneBad ⟨none⟩ egTime).attempted.length) :=
  ⟨by decide, claim_C7 egEnvOneBad ⟨none⟩ egTime (by decide)⟩

/-- C8: when configuration retrieval fails, the run is fatal: statusCode 500
with a top-level error body, no source attempted, no object written. -/
theorem claim_C8 (env : Env) (ev : Event) (ts : UtcTime) (e : String)
    (h : env.getSecret = .error e) :
    handler env ev ts =
      { statusCode := 500, body := .fatal e ts, attempted := [], writes := [] } := by
  unfold handler get_api_config
  rw [h]

/-- C8 witness at a concrete environment whose secret retrieval fails. -/
theorem claim_C8_witness :
    egEnvNoConfig.getSecret = .error "AccessDenied" ∧
    handler egEnvNoConfig ⟨none⟩ egTime =
      { statusCode := 500, body := .fatal "AccessDenied" egTime,
        attempted := [], writes := [] } :=
  ⟨rfl, claim_C8 egEnvNoConfig ⟨none⟩ egTime "AccessDenied" rfl⟩

/-- C10: a source configuration lacking the name key defeats the per-source
containment: the KeyError raised while building the failure entry escapes the
per-source except block, the remaining sources are not attempted, and the
whole run returns the fatal 500 response instead of a partial 207. -/
theorem claim_C10 (env : Env) (ts : UtcTime) (pre post : List SourceConfig)
    (bad : SourceConfig)
    (hpre : ∀ cfg ∈ pre, cfg.name.isSome = true)
    (hbad : bad.name = none)
    (hcfg : env.getSecret = .ok ⟨pre ++ bad :: post⟩) :
    (handler env ⟨none⟩ ts).statusCode = 500 ∧
    (handler env ⟨none⟩ ts).body = .fatal "KeyError: name" ts ∧
    (handler env ⟨none⟩ ts).attempted = pre ++ [bad] := by
  obtain ⟨hesc, hatt⟩ := processLoop_noname env ts pre post bad hpre hbad
  rw [handler_escape_reduce env ts (pre ++ bad :: post) "KeyError: name" hcfg hesc]
  exact ⟨rfl, rfl, hatt⟩

/-- C10 witness: a nameless source between two healthy ones; the third source
is never attempted. -/
theorem claim_C10_witness :
    ((∀ cfg ∈ [egSrc1], cfg.name.isSome = true) ∧
      egSrcNoName.name = none ∧
      egEnvNoName.getSecret = .ok ⟨[egSrc1] ++ egSrcNoName :: [egSrc3]⟩) ∧
    ((handler egEnvNoName ⟨none⟩ egTime).statusCode = 500 ∧
      (handler egEnvNoName ⟨none⟩ egTime).body = .fatal "KeyError: name" egTime ∧
      (handler egEnvNoName ⟨none⟩ egTime).attempted = [egSrc1] ++ [egSrcNoName]) :=
  ⟨⟨by decide, by decide, rfl⟩,
    claim_C10 egEnvNoName egTime [egSrc1] [egSrc3] egSrcNoName
      (by decide) (by decide) rfl⟩

/-! Helper lemmas about the transform model. -/

theorem getVal_setVal_same (r : Row) (c : String) (v : CellValue) :
    getVal (setVal r c v) c = v := by
  induction r with
  | nil => simp [setVal, getVal]
  | cons p rest ih =>
    obtain ⟨k, w⟩ := p
    by_cases h : k = c
    · simp [setVal, h, getVal]
    · simp [setVal, h, getVal, ih]

theorem getVal_setVal_ne (r : Row) (c c2 : String) (v : CellValue) (h : c2 ≠ c) :
    getVal (setVal r c v) c2 = getVal r c2 := by
  induction r with
  | nil => simp [setVal, getVal, Ne.symm h]
  | cons p rest ih =>
    obtain ⟨k, w⟩ := p
    by_cases hk : k = c
    · subst hk
      simp [setVal, getVal, Ne.symm h]
    · simp [setVal, hk, getVal, ih]

theorem EventTime.le_refl (a : EventTime) : a.le a = true := by
  simp [EventTime.le]

theorem EventTime.le_total (a b : EventTime) : a.le b = true ∨ b.le a = true := by
  simp only [EventTime.le]
  split_ifs <;> simp_all <;> omega

theorem recLe_refl (a : CellValue) : recLe a a = true := by
  cases a <;> simp [recLe, EventTime.le_refl]

theorem recLe_total (a b : CellValue) : recLe a b = true ∨ recLe b a = true := by
  cases a <;> cases b <;> first
    | exact EventTime.le_total _ _
    | simp [recLe]

theorem recLe_of_lt (a b : CellValue) (h : recLt a b = true) : recLe a b = true := by
  rw [recLt, Bool.and_eq_true] at h
  exact h.1

theorem recLe_of_not_lt (a b : CellValue) (h : recLt a b = false) :
    recLe b a = true := by
  rcases recLe_total a b with h1 | h1
  · rw [recLt, h1, Bool.true_and, Bool.not_eq_false'] at h
    exact h
  · exact h1

theorem sameKey_symm (q r : Row) : sameKey q r = sameKey r q := by
  simp only [sameKey, decide_eq_decide]
  exact eq_comm

theorem keepRow_spec (earlier : List Row) (r : Row) (later : List Row)
    (h : keepRow earlier r later = true) :
    (∀ q ∈ earlier, sameKey q r = true → recLt (recOf q) (recOf r) = true) ∧
    (∀ q ∈ later, sameKey q r = true → recLt (recOf r) (recOf q) = false) := by
  rw [keepRow, Bool.and_eq_true, List.all_eq_true, List.all_eq_true] at h
  constructor
  · intro q hq hs
    have hh := h.1 q hq
    rw [hs] at hh
    simpa using hh
  · intro q hq hs
    have hh := h.2 q hq
    rw [hs] at hh
    simpa using hh

theorem dedupeGo_mem (l : List Row) : ∀ (earlier : List Row) (r : Row),
    r ∈ dedupeGo earlier l →
    ∃ l₁ l₂, l = l₁ ++ r :: l₂ ∧
      (∀ q ∈ earlier, sameKey q r = true → recLt (recOf q) (recOf r) = true) ∧
      (∀ q ∈ l₁, sameKey q r = true → recLt (recOf q) (recOf r) = true) ∧
      (∀ q ∈ l₂, sameKey q r = true → recLt (recOf r) (recOf q) = false) := by
  induction l with
  | nil => intro earlier r h; simp [dedupeGo] at h
  | cons x xs ih =>
    intro earlier r h
    by_cases hk : keepRow earlier x xs = true
    · simp only [dedupeGo, if_pos hk] at h
      rcases List.mem_cons.1 h with rfl | h
      · have hs := keepRow_spec earlier r xs hk
        exact ⟨[], xs, rfl, hs.1, by simp, hs.2⟩
      · rcases ih (x :: earlier) r h with ⟨l₁, l₂, heq, hearlier, hl₁, hl₂⟩
        refine ⟨x :: l₁, l₂, by rw [heq]; rfl, ?_, ?_, hl₂⟩
        · exact fun q hq => hearlier q (List.mem_cons_of_mem x hq)
        · intro q hq
          rcases List.mem_cons.1 hq with rfl | hq
          · exact hearlier q (List.mem_cons_self q earlier)
          · exact hl₁ q hq
    · simp only [dedupeGo, if_neg hk] at h
      rcases ih (x :: earlier) r h with ⟨l₁, l₂, heq, hearlier, hl₁, hl₂⟩
      refine ⟨x :: l₁, l₂, by rw [heq]; rfl, ?_, ?_, hl₂⟩
      · exact fun q hq => hearlier q (List.mem_cons_of_mem x hq)
      · intro q hq
        rcases List.mem_cons.1 hq with rfl | hq
        · exact hearlier q (List.mem_cons_self q earlier)
        · exact hl₁ q hq

theorem dedupeGo_pairwise (l : List Row) : ∀ earlier : List Row,
    (dedupeGo earlier l).Pairwise (fun r s => sameKey r s = false) := by
  induction l with
  | nil => intro earlier; simp [dedupeGo]
  | cons x xs ih =>
    intro earlier
    by_cases hk : keepRow earlier x xs = true
    · simp only [dedupeGo, if_pos hk]
      refine List.Pairwise.cons ?_ (ih (x :: earlier))
      intro s hs
      rcases dedupeGo_mem xs (x :: earlier) s hs with ⟨l₁, l₂, heq, hearlier, _, _⟩
      by_contra hne
      have hsame : sameKey x s = true := by
        cases hxs : sameKey x s
        · exact absurd hxs hne
        · rfl
      have h1 : recLt (recOf x) (recOf s) = true :=
        hearlier x (List.mem_cons_self x earlier) hsame
      have hs_in_xs : s ∈ xs := by
        rw [heq]; exact List.mem_append_right l₁ (List.mem_cons_self s l₂)
      have hsame2 : sameKey s x = true := by rw [sameKey_symm]; exact hsame
      have h2 := (keepRow_spec earlier x xs hk).2 s hs_in_xs hsame2
      rw [h1] at h2
      exact absurd h2 (by decide)
    · simp only [dedupeGo, if_neg hk]
      exact ih (x :: earlier)

theorem dedupeGo_subset (l : List Row) : ∀ earlier, ∀ r ∈ dedupeGo earlier l, r ∈ l := by
  intro earlier r h
  rcases dedupeGo_mem l earlier r h with ⟨l₁, l₂, heq, _, _, _⟩
  rw [heq]
  exact List.mem_append_right l₁ (List.mem_cons_self r l₂)

theorem dedupe_rows_subset (df : DataFrame) : ∀ r ∈ (dedupe df).rows, r ∈ df.rows := by
  intro r h
  unfold dedupe at h
  split at h
  · exact dedupeGo_subset df.rows [] r h
  · exact h

theorem dedupe_passthrough (df : DataFrame)
    (h : "id" ∉ df.columns ∨ "timestamp" ∉ df.columns) : dedupe df = df := by
  rw [dedupe, if_neg]
  rintro ⟨h1, h2⟩
  rcases h with h3 | h3
  · exact h3 h1
  · exact h3 h2

theorem trim_fold_rows (cols : List String) : ∀ df : DataFrame,
    (cols.foldl (fun acc c => acc.withColumn c DType.stringT
        (fun r => trimCell (getVal r c))) df).rows = df.rows.map (trimRowBy cols) := by
  induction cols with
  | nil =>
    intro df
    rw [show trimRowBy [] = id from funext fun r => rfl, List.map_id, List.foldl_nil]
  | cons c cs ih =>
    intro df
    rw [List.foldl_cons, ih]
    simp [DataFrame.withColumn, List.map_map, Function.comp, trimRowBy]

theorem getVal_trimRowBy_notmem (cols : List String) : ∀ (r : Row) (c : String),
    c ∉ cols → getVal (trimRowBy cols r) c = getVal r c := by
  induction cols with
  | nil => intro r c _; simp [trimRowBy]
  | cons c0 cs ih =>
    intro r c hc
    have h1 : c ≠ c0 := fun h => hc (h ▸ List.mem_cons_self c0 cs)
    have h2 : c ∉ cs := fun h => hc (List.mem_cons_of_mem c0 h)
    show getVal (trimRowBy cs (setVal r c0 (trimCell (getVal r c0)))) c = getVal r c
    rw [ih _ c h2, getVal_setVal_ne _ _ _ _ h1]

theorem getVal_trimRowBy_mem (cols : List String) : ∀ (r : Row) (c : String),
    cols.Nodup → c ∈ cols → getVal (trimRowBy cols r) c = trimCell (getVal r c) := by
  induction cols with
  | nil => intro r c _ hc; simp at hc
  | cons c0 cs ih =>
    intro r c hnd hc
    have hc0 : c0 ∉ cs := (List.nodup_cons.1 hnd).1
    have hnd2 : cs.Nodup := (List.nodup_cons.1 hnd).2
    show getVal (trimRowBy cs (setVal r c0 (trimCell (getVal r c0)))) c = trimCell (getVal r c)
    rcases List.mem_cons.1 hc with rfl | hcs
    · rw [getVal_trimRowBy_notmem cs _ c hc0, getVal_setVal_same]
    · have hne : c ≠ c0 := fun h => hc0 (h ▸ hcs)
      rw [ih _ c hnd2 hcs, getVal_setVal_ne _ _ _ _ hne]

theorem clean_data_rows (df : DataFrame) :
    (clean_data df).rows =
      if "id" ∈ df.columns then
        ((dedupe df).rows.map (trimRowBy (stringCols df))).filter
          (fun r => ! isNullCell (getVal r "id"))
      else (dedupe df).rows.map (trimRowBy (stringCols df)) := by
  unfold clean_data
  split
  · simp [trim_fold_rows]
  · simp [trim_fold_rows]

theorem withColumn_rows_length (df : DataFrame) (c : String) (dt : DType)
    (f : Row → CellValue) : (df.withColumn c dt f).rows.length = df.rows.length := by
  simp [DataFrame.withColumn]

theorem add_audit_rows_length (df : DataFrame) (now : EventTime) (sf : String)
    (rid : Option String) :
    (add_audit_columns df now sf rid).rows.length = df.rows.length := by
  unfold add_audit_columns
  simp [withColumn_rows_length]

theorem add_partitions_rows_length (df : DataFrame) (now : EventTime) :
    (add_partitions df now).rows.length = df.rows.length := by
  unfold add_partitions
  split <;> simp [withColumn_rows_length]

/-- C2 (amended): every record receives the three partition columns, but the
processing-date fallback is schema-level only: when the schema lacks the
timestamp column the triple is the processing date for every record, and when
the schema has it the triple is computed from the record's timestamp value per
record (hence NULL, not the processing date, when that value is NULL). -/
theorem claim_C2 (df : DataFrame) (now : EventTime) (row : Row)
    (h : row ∈ (add_partitions df now).rows) :
    if "timestamp" ∈ df.columns then
      getVal row "year" = yearOf (getVal row "timestamp") ∧
      getVal row "month" = monthOf (getVal row "timestamp") ∧
      getVal row "day" = dayOf (getVal row "timestamp")
    else
      getVal row "year" = CellValue.int now.year ∧
      getVal row "month" = CellValue.int now.month ∧
      getVal row "day" = CellValue.int now.day := by
  by_cases hc : "timestamp" ∈ df.columns
  · rw [if_pos hc]
    rw [add_partitions, if_pos hc] at h
    simp only [DataFrame.withColumn, List.map_map, List.mem_map, Function.comp] at h
    rcases h with ⟨r, hr, rfl⟩
    set r1 := setVal r "year" (yearOf (getVal r "timestamp")) with hr1
    set r2 := setVal r1 "month" (monthOf (getVal r1 "timestamp")) with hr2
    set r3 := setVal r2 "day" (dayOf (getVal r2 "timestamp")) with hr3
    have ht1 : getVal r1 "timestamp" = getVal r "timestamp" := by
      rw [hr1]; exact getVal_setVal_ne _ _ _ _ (by decide)
    have ht2 : getVal r2 "timestamp" = getVal r "timestamp" := by
      rw [hr2, getVal_setVal_ne _ _ _ _ (by decide)]; exact ht1
    have ht3 : getVal r3 "timestamp" = getVal r "timestamp" := by
      rw [hr3, getVal_setVal_ne _ _ _ _ (by decide)]; exact ht2
    have hy : getVal r3 "year" = yearOf (getVal r "timestamp") := by
      rw [hr3, getVal_setVal_ne _ _ _ _ (by decide), hr2,
        getVal_setVal_ne _ _ _ _ (by decide), hr1, getVal_setVal_same]
    have hm : getVal r3 "month" = monthOf (getVal r "timestamp") := by
      rw [hr3, getVal_setVal_ne _ _ _ _ (by decide), hr2, getVal_setVal_same, ht1]
    have hd : getVal r3 "day" = dayOf (getVal r "timestamp") := by
      rw [hr3, getVal_setVal_same, ht2]
    exact ⟨by rw [hy, ht3], by rw [hm, ht3], by rw [hd, ht3]⟩
  · rw [if_neg hc]
    rw [add_partitions, if_neg hc] at h
    simp only [DataFrame.withColumn, List.map_map, List.mem_map, Function.comp] at h
    rcases h with ⟨r, hr, rfl⟩
    set r1 := setVal r "year" (CellValue.int now.year) with hr1
    set r2 := setVal r1 "month" (CellValue.int now.month) with hr2
    set r3 := setVal r2 "day" (CellValue.int now.day) with hr3
    refine ⟨?_, ?_, ?_⟩
    · rw [hr3, getVal_setVal_ne _ _ _ _ (by decide), hr2,
        getVal_setVal_ne _ _ _ _ (by decide), hr1, getVal_setVal_same]
    · rw [hr3, getVal_setVal_ne _ _ _ _ (by decide), hr2, getVal_setVal_same]
    · rw [hr3, getVal_setVal_same]

/-- C2 counterexample: with the timestamp column in the schema but a NULL
timestamp value in the record, the record carries NULL partition fields, not
the processing date, refuting per-record totality of the fallback. -/
theorem claim_C2_counterexample :
    (add_partitions egNullTsDf egNow).rows.map
        (fun r => (getVal r "year", getVal r "month", getVal r "day")) =
      [(CellValue.null, CellValue.null, CellValue.null)] := by decide

/-- C2 witness: a frame without the timestamp column takes the processing-date
fallback on its record. -/
theorem claim_C2_witness :
    ([("id", CellValue.int 1), ("year", CellValue.int 2024),
      ("month", CellValue.int 3), ("day", CellValue.int 15)] ∈
        (add_partitions egNoTsDf egNow).rows) ∧
    (if "timestamp" ∈ egNoTsDf.columns then
      getVal [("id", CellValue.int 1), ("year", CellValue.int 2024),
        ("month", CellValue.int 3), ("day", CellValue.int 15)] "year" =
          yearOf (getVal [("id", CellValue.int 1), ("year", CellValue.int 2024),
            ("month", CellValue.int 3), ("day", CellValue.int 15)] "timestamp") ∧
      getVal [("id", CellValue.int 1), ("year", CellValue.int 2024),
        ("month", CellValue.int 3), ("day", CellValue.int 15)] "month" =
          monthOf (getVal [("id", CellValue.int 1), ("year", CellValue.int 2024),
            ("month", CellValue.int 3), ("day", CellValue.int 15)] "timestamp") ∧
      getVal [("id", CellValue.int 1), ("year", CellValue.int 2024),
        ("month", CellValue.int 3), ("day", CellValue.int 15)] "day" =
          dayOf (getVal [("id", CellValue.int 1), ("year", CellValue.int 2024),
            ("month", CellValue.int 3), ("day", CellValue.int 15)] "timestamp")
    else
      getVal [("id", CellValue.int 1), ("year", CellValue.int 2024),
        ("month", CellValue.int 3), ("day", CellValue.int 15)] "year" =
          CellValue.int egNow.year ∧
      getVal [("id", CellValue.int 1), ("year", CellValue.int 2024),
        ("month", CellValue.int 3), ("day", CellValue.int 15)] "month" =
          CellValue.int egNow.month ∧
      getVal [("id", CellValue.int 1), ("year", CellValue.int 2024),
        ("month", CellValue.int 3), ("day", CellValue.int 15)] "day" =
          CellValue.int egNow.day) :=
  ⟨by decide,
    claim_C2 egNoTsDf egNow
      [("id", CellValue.int 1), ("year", CellValue.int 2024),
        ("month", CellValue.int 3), ("day", CellValue.int 15)] (by decide)⟩

/-- C3: when the key and recency columns are in the schema, no two surviving
rows share an id value, every survivor carries the maximum recency of its
group, and the survivor is the deterministically chosen first row of its group
attaining that maximum (every earlier same-key input row is strictly less
recent). -/
theorem claim_C3 (df : DataFrame)
    (hid : "id" ∈ df.columns) (hts : "timestamp" ∈ df.columns) :
    (dedupe df).rows.Pairwise (fun r s => getVal r "id" ≠ getVal s "id") ∧
    (∀ r ∈ (dedupe df).rows, ∀ q ∈ df.rows,
        getVal q "id" = getVal r "id" → recLe (recOf q) (recOf r) = true) ∧
    (∀ r ∈ (dedupe df).rows, ∃ l₁ l₂, df.rows = l₁ ++ r :: l₂ ∧
        ∀ q ∈ l₁, getVal q "id" = getVal r "id" →
          recLt (recOf q) (recOf r) = true) := by
  have hg : (dedupe df).rows = dedupeGo [] df.rows := by
    rw [dedupe, if_pos ⟨hid, hts⟩]
  rw [hg]
  refine ⟨?_, ?_, ?_⟩
  · exact (dedupeGo_pairwise df.rows []).imp (fun h => of_decide_eq_false h)
  · intro r hr q hq hk
    rcases dedupeGo_mem df.rows [] r hr with ⟨l₁, l₂, heq, _, hl₁, hl₂⟩
    have hsk : sameKey q r = true := decide_eq_true hk
    rw [heq] at hq
    rcases List.mem_append.1 hq with hq | hq
    · exact recLe_of_lt _ _ (hl₁ q hq hsk)
    · rcases List.mem_cons.1 hq with rfl | hq
      · exact recLe_refl _
      · exact recLe_of_not_lt _ _ (hl₂ q hq hsk)
  · intro r hr
    rcases dedupeGo_mem df.rows [] r hr with ⟨l₁, l₂, heq, _, hl₁, _⟩
    exact ⟨l₁, l₂, heq, fun q hq hk => hl₁ q hq (decide_eq_true hk)⟩

/-- C3 witness at a concrete frame holding a duplicated id. -/
theorem claim_C3_witness :
    ("id" ∈ egDupDf.columns ∧ "timestamp" ∈ egDupDf.columns) ∧
    ((dedupe egDupDf).rows.Pairwise (fun r s => getVal r "id" ≠ getVal s "id") ∧
      (∀ r ∈ (dedupe egDupDf).rows, ∀ q ∈ egDupDf.rows,
          getVal q "id" = getVal r "id" → recLe (recOf q) (recOf r) = true) ∧
      (∀ r ∈ (dedupe egDupDf).rows, ∃ l₁ l₂, egDupDf.rows = l₁ ++ r :: l₂ ∧
          ∀ q ∈ l₁, getVal q "id" = getVal r "id" →
            recLt (recOf q) (recOf r) = true)) :=
  ⟨⟨by decide, by decide⟩, claim_C3 egDupDf (by decide) (by decide)⟩

/-- C4: the reported row count is the count of the cleaned (post-dedup,
post-filter) frame, not the input count; in particular ten raw records with
one duplicated id and one NULL id yield a count of eight. -/
theorem claim_C4 :
    (∀ (raw : DataFrame) (now : EventTime) (sf : String) (rid : Option String)
        (bucket pfx : String),
      run_etl raw now sf rid bucket pfx = (clean_data raw).rows.length) ∧
    egTenDf.rows.length = 10 ∧
    run_etl egTenDf egNow "file0" none "bucket0" "out0" = 8 := by
  refine ⟨?_, by decide, by decide⟩
  intro raw now sf rid bucket pfx
  show (add_partitions (add_audit_columns (clean_data raw) now sf rid) now).rows.length =
    (clean_data raw).rows.length
  rw [add_partitions_rows_length, add_audit_rows_length]

/-- C5: after clean_data every surviving row is the column-wise trim of an
input row (string-typed columns trimmed, all other columns untouched), and
when the id column is not declared in the schema no row is dropped. -/
theorem claim_C5 (df : DataFrame) (hnd : (df.schema.map Prod.fst).Nodup) :
    (∀ row ∈ (clean_data df).rows, ∃ r ∈ df.rows, ∀ c : String,
        getVal row c =
          if c ∈ stringCols df then trimCell (getVal r c) else getVal r c) ∧
    ("id" ∉ df.columns → (clean_data df).rows.length = df.rows.length) := by
  have hndc : (stringCols df).Nodup := by
    have hsub : (stringCols df).Sublist (df.schema.map Prod.fst) :=
      (List.filter_sublist df.schema).map Prod.fst
    exact hnd.sublist hsub
  constructor
  · intro row hrow
    rw [clean_data_rows] at hrow
    have hrow2 : row ∈ (dedupe df).rows.map (trimRowBy (stringCols df)) := by
      by_cases h : "id" ∈ df.columns
      · rw [if_pos h] at hrow; exact List.mem_of_mem_filter hrow
      · rw [if_neg h] at hrow; exact hrow
    rcases List.mem_map.1 hrow2 with ⟨r0, hr0, rfl⟩
    refine ⟨r0, dedupe_rows_subset df r0 hr0, fun c => ?_⟩
    by_cases hc : c ∈ stringCols df
    · rw [if_pos hc, getVal_trimRowBy_mem _ _ _ hndc hc]
    · rw [if_neg hc, getVal_trimRowBy_notmem _ _ _ hc]
  · intro hid
    rw [clean_data_rows, if_neg hid, dedupe_passthrough df (Or.inl hid),
      List.length_map]

/-- C5 witness: a concrete frame whose string field carries surrounding
whitespace. -/
theorem claim_C5_witness :
    (egTrimDf.schema.map Prod.fst).Nodup ∧
    ((∀ row ∈ (clean_data egTrimDf).rows, ∃ r ∈ egTrimDf.rows, ∀ c : String,
        getVal row c =
          if c ∈ stringCols egTrimDf then trimCell (getVal r c) else getVal r c) ∧
      ("id" ∉ egTrimDf.columns →
        (clean_data egTrimDf).rows.length = egTrimDf.rows.length)) :=
  ⟨by decide, claim_C5 egTrimDf (by decide)⟩

/-- C9: when the schema lacks the id column or the timestamp column, the dedup
stage is a pass-through: it returns its input frame unchanged. -/
theorem claim_C9 (df : DataFrame)
    (h : "id" ∉ df.columns ∨ "timestamp" ∉ df.columns) :
    dedupe df = df :=
  dedupe_passthrough df h

/-- C9 witness: a frame having id but no timestamp column. -/
theorem claim_C9_witness :
    ("id" ∉ egNoTsDf.columns ∨ "timestamp" ∉ egNoTsDf.columns) ∧
    dedupe egNoTsDf = egNoTsDf :=
  ⟨Or.inr (by decide), claim_C9 egNoTsDf (Or.inr (by decide))⟩
